import Mathlib

/-!
Shallow embedding of three LibreOffice `loplugin` compiler passes
(`redundantcast`, `passparamsbyref` and `commaoperator`) together with
proofs about their diagnostic behaviour.

Source locations, Clang types and the expression nodes inspected by the
passes are modelled as inductive data; each `Visit...` callback of a pass
is translated into a pure function returning the list of diagnostics it
emits for one node.  Externally supplied facilities (the configured
`ignoreLocation` predicate, `isInUnoIncludeFile`, and Sema's
`IsQualificationConversion`) are fields of an environment record, as the
system specification describes them as caller-supplied configuration.
-/

namespace LoVerify

/-- Source locations with macro provenance: a location is either a plain
file location, a macro-body expansion (carrying the macro's name, the
spelling location of the token inside the macro's replacement text and
the location the expansion was triggered from), or a macro-argument
expansion (carrying the spelling location of the argument text at the
call site and the location inside the expansion where it is used). -/
inductive Loc where
  | fileLoc (id : Nat)
  | bodyExp (mname : String) (spelling : Loc) (expandedFrom : Loc)
  | argExp (spelling : Loc) (usedAt : Loc)
deriving DecidableEq

/-- SourceManager::isMacroBodyExpansion. -/
def isMacroBodyExpansion : Loc → Bool
  | .bodyExp .. => true
  | _ => false

/-- SourceManager::isMacroArgExpansion. -/
def isMacroArgExpansion : Loc → Bool
  | .argExp .. => true
  | _ => false

/-- SourceLocation::isMacroID: the location results from some macro expansion. -/
def isMacroID (l : Loc) : Bool :=
  isMacroBodyExpansion l || isMacroArgExpansion l

/-- SourceManager::getSpellingLoc, fully resolved to a file location. -/
def getSpellingLoc : Loc → Loc
  | .fileLoc i => .fileLoc i
  | .bodyExp _ s _ => getSpellingLoc s
  | .argExp s _ => getSpellingLoc s

/-- SourceManager::getImmediateMacroCallerLoc: for a macro-argument
expansion the immediate spelling (the argument text at the call site),
for a macro-body expansion the location the expansion was triggered from. -/
def getImmediateMacroCallerLoc : Loc → Loc
  | .fileLoc i => .fileLoc i
  | .bodyExp _ _ e => e
  | .argExp s _ => s

/-- Lexer::getImmediateMacroName: name of the macro whose expansion the
location immediately belongs to. -/
def immediateMacroName : Loc → String
  | .fileLoc _ => ""
  | .bodyExp n _ _ => n
  | .argExp _ e => immediateMacroName e

/-- The `while (isMacroArgExpansion(l)) l = getImmediateMacroCallerLoc(l);`
loops of `RedundantCast::VisitCStyleCastExpr` (and of the reinterpret-cast
rewriter), fused into one recursive walk. -/
def unwindMacroArgs : Loc → Loc
  | .argExp s _ => unwindMacroArgs s
  | l => l

/-- Clang types, with all cv-qualifiers attached explicitly at each
nesting level.  `typedefT` is sugar over an underlying type (the
underlying type's own qualifiers are the typedef declaration's);
`recordT` carries the class name, its enclosing namespaces listed
inner-to-outer, whether the type is complete, and its size in chars. -/
inductive Ty where
  | builtin (name : String) (integral floating : Bool)
  | enumT (name : String)
  | recordT (name : String) (nss : List String) (complete : Bool) (size : Nat)
  | arrayT (ec ev : Bool) (elem : Ty) (len : Nat)
  | ptrT (pc pv : Bool) (pointee : Ty)
  | refT (pc pv : Bool) (pointee : Ty)
  | funT
  | nullptrT
  | typedefT (name : String) (uc uv : Bool) (under : Ty)
deriving DecidableEq

/-- A Clang `QualType`: top-level const/volatile qualifiers plus the type
node.  Equality of two `QualType`s is structural equality of the sugared
form, matching Clang's uniqued-pointer `QualType` comparison. -/
structure QualType where
  qc : Bool
  qv : Bool
  ty : Ty
deriving DecidableEq

/-- Canonicalization worker: strips typedef sugar (merging the use-site
qualifiers into the underlying type's) and canonicalizes pointee and
element types recursively. -/
def canonQ : Bool → Bool → Ty → QualType
  | c, v, .typedefT _ uc uv u => canonQ (c || uc) (v || uv) u
  | c, v, .ptrT pc pv p =>
      let q := canonQ pc pv p
      ⟨c, v, .ptrT q.qc q.qv q.ty⟩
  | c, v, .refT pc pv p =>
      let q := canonQ pc pv p
      ⟨c, v, .refT q.qc q.qv q.ty⟩
  | c, v, .arrayT ec ev e n =>
      let q := canonQ ec ev e
      ⟨c, v, .arrayT q.qc q.qv q.ty n⟩
  | c, v, t => ⟨c, v, t⟩

/-- QualType::getCanonicalType: typedef-free structural identity, as the
specification's `canonicalize`. -/
def canonical (t : QualType) : QualType :=
  canonQ t.qc t.qv t.ty

/-- Type::isBuiltinType (a canonical-type category test). -/
def isBuiltinType (t : QualType) : Bool :=
  match (canonical t).ty with
  | .builtin .. => true
  | _ => false

/-- Type::isBooleanType. -/
def isBooleanType (t : QualType) : Bool :=
  match (canonical t).ty with
  | .builtin n _ _ => decide (n = "bool")
  | _ => false

/-- Type::isVoidType. -/
def isVoidType (t : QualType) : Bool :=
  match (canonical t).ty with
  | .builtin n _ _ => decide (n = "void")
  | _ => false

/-- Type::isIntegralType(Ctx) || Type::isRealFloatingType(), the guard of
the arithmetic-safety gate (enum types are not integral in C++). -/
def isIntegralOrFloating (t : QualType) : Bool :=
  match (canonical t).ty with
  | .builtin _ i f => i || f
  | _ => false

/-- Type::isPointerType. -/
def isPointerType (t : QualType) : Bool :=
  match (canonical t).ty with
  | .ptrT .. => true
  | _ => false

/-- Type::isRecordType. -/
def isRecordType (t : QualType) : Bool :=
  match (canonical t).ty with
  | .recordT .. => true
  | _ => false

/-- Type::isArrayType. -/
def isArrayType (t : QualType) : Bool :=
  match (canonical t).ty with
  | .arrayT .. => true
  | _ => false

/-- Type::isReferenceType. -/
def isReferenceType (t : QualType) : Bool :=
  match (canonical t).ty with
  | .refT .. => true
  | _ => false

/-- Type::isFunctionType. -/
def isFunctionType (t : QualType) : Bool :=
  match (canonical t).ty with
  | .funT => true
  | _ => false

/-- Type::isObjectType: neither a function type, nor a reference type,
nor void. -/
def isObjectType (t : QualType) : Bool :=
  !(isFunctionType t || isReferenceType t || isVoidType t)

/-- Type::isNullPtrType. -/
def isNullPtrTypeQ (t : QualType) : Bool :=
  match (canonical t).ty with
  | .nullptrT => true
  | _ => false

/-- Type::isIncompleteType: an incomplete record, or void. -/
def isIncompleteType (t : QualType) : Bool :=
  match (canonical t).ty with
  | .recordT _ _ c _ => !c
  | .builtin n _ _ => decide (n = "void")
  | _ => false

/-- QualType::hasLocalQualifiers. -/
def hasLocalQualifiers (t : QualType) : Bool :=
  t.qc || t.qv

/-- Modelled from the spec: `loplugin::TypeCheck(t).Typedef()` of the
missing `check.hxx` — the type's top-level sugar is a typedef, used to
"detect qualifiers ... test categories (... typedef ...)". -/
def isTypedefSugar (t : QualType) : Bool :=
  match t.ty with
  | .typedefT .. => true
  | _ => false

/-- Type::getAs&lt;TypedefType&gt;: the top-level typedef name, if the type is
typedef sugar (typedef nodes are uniqued by declaration, so name equality
models pointer equality of the `TypedefType` nodes). -/
def typedefNameOf (t : QualType) : Option String :=
  match t.ty with
  | .typedefT n _ _ _ => some n
  | _ => none

/-- Modelled from the spec: `loplugin::TypeCheck(t).Enum()` of the missing
`check.hxx` — the type is an enum type (through sugar). -/
def isEnumTypeQ (t : QualType) : Bool :=
  match (canonical t).ty with
  | .enumT _ => true
  | _ => false

/-- Type::getAs&lt;PointerType&gt;()->getPointeeType(): peel sugar down to a
pointer type and return its pointee. -/
def pointeeOfTy : Ty → Option QualType
  | .ptrT pc pv p => some ⟨pc, pv, p⟩
  | .typedefT _ _ _ u => pointeeOfTy u
  | _ => none

/-- Pointee of a (possibly sugared) pointer type. -/
def pointeeType (t : QualType) : Option QualType :=
  pointeeOfTy t.ty

/-- Modelled from the spec: `loplugin::TypeCheck(t1).Pointer().NonConstVolatile().Void()`
of the missing `check.hxx` — a pointer to cv-unqualified void. -/
def isPtrToNonCVVoid (t : QualType) : Bool :=
  match (canonical t).ty with
  | .ptrT pc pv p =>
      !pc && !pv &&
        (match p with
         | .builtin n _ _ => decide (n = "void")
         | _ => false)
  | _ => false

/-- Expression value categories (`ExprValueKind`): prvalue, lvalue, xvalue. -/
inductive VK where
  | rv
  | lv
  | xv
deriving DecidableEq

/-- Binary operator opcodes used by the passes. -/
inductive BinOp where
  | mul | divOp | rem | add | subOp | shl | shr | bitAnd | bitXor | bitOr
  | comma | assign | cmpLT | cmpGT | cmpLE | cmpGE | cmpEQ | cmpNE | otherOp
deriving DecidableEq

/-- Cast kinds of implicit casts relevant to the passes. -/
inductive CastKind where
  | noOp | bitCast | lvalueToRValue | derivedToBase | otherKind
deriving DecidableEq

/-- The three source locations the passes query on a node: `getLocStart`,
`getExprLoc` (for a binary operator this is the operator location), and
`getLocEnd`. -/
structure SrcSpan where
  sbegin : Loc
  sexpr : Loc
  send : Loc
deriving DecidableEq

/-- The expression nodes inspected by the `redundantcast` pass.  Each node
carries its static type, its value category and its source span; explicit
casts additionally carry the type as written.  Children of init-list
nodes are irrelevant to the modelled callbacks and are omitted. -/
inductive Expr where
  | declRef (t : QualType) (k : VK) (sp : SrcSpan)
  | intLit (t : QualType) (sp : SrcSpan) (value : Int)
  | parenE (sp : SrcSpan) (sub : Expr)
  | implicitCastE (ck : CastKind) (t : QualType) (k : VK) (sp : SrcSpan) (sub : Expr)
  | constCastE (t tw : QualType) (k : VK) (sp : SrcSpan) (sub : Expr)
  | staticCastE (t tw : QualType) (k : VK) (sp : SrcSpan) (sub : Expr)
  | reinterpretCastE (t tw : QualType) (k : VK) (sp : SrcSpan) (sub : Expr)
  | cstyleCastE (t tw : QualType) (k : VK) (sp : SrcSpan) (sub : Expr)
  | functionalCastE (t tw : QualType) (k : VK) (sp : SrcSpan) (sub : Expr)
  | binOpE (op : BinOp) (t : QualType) (k : VK) (sp : SrcSpan) (lhs rhs : Expr)
  | unaryOpE (t : QualType) (k : VK) (sp : SrcSpan) (sub : Expr)
  | condOpE (t : QualType) (k : VK) (sp : SrcSpan) (cnd th el : Expr)
  | initListE (t : QualType) (k : VK) (sp : SrcSpan)
  | stdInitListE (t : QualType) (k : VK) (sp : SrcSpan)

/-- Expr::getType (a paren expression has its sub-expression's type). -/
def exprType : Expr → QualType
  | .declRef t _ _ => t
  | .intLit t _ _ => t
  | .parenE _ s => exprType s
  | .implicitCastE _ t _ _ _ => t
  | .constCastE t _ _ _ _ => t
  | .staticCastE t _ _ _ _ => t
  | .reinterpretCastE t _ _ _ _ => t
  | .cstyleCastE t _ _ _ _ => t
  | .functionalCastE t _ _ _ _ => t
  | .binOpE _ t _ _ _ _ => t
  | .unaryOpE t _ _ _ => t
  | .condOpE t _ _ _ _ _ => t
  | .initListE t _ _ => t
  | .stdInitListE t _ _ => t

/-- Expr::getValueKind (a paren expression has its sub-expression's value
category; an integer literal is a prvalue). -/
def exprVK : Expr → VK
  | .declRef _ k _ => k
  | .intLit _ _ _ => .rv
  | .parenE _ s => exprVK s
  | .implicitCastE _ _ k _ _ => k
  | .constCastE _ _ k _ _ => k
  | .staticCastE _ _ k _ _ => k
  | .reinterpretCastE _ _ k _ _ => k
  | .cstyleCastE _ _ k _ _ => k
  | .functionalCastE _ _ k _ _ => k
  | .binOpE _ _ k _ _ _ => k
  | .unaryOpE _ k _ _ => k
  | .condOpE _ k _ _ _ _ => k
  | .initListE _ k _ => k
  | .stdInitListE _ k _ => k

/-- Source span of an expression node. -/
def exprSpan : Expr → SrcSpan
  | .declRef _ _ sp => sp
  | .intLit _ sp _ => sp
  | .parenE sp _ => sp
  | .implicitCastE _ _ _ sp _ => sp
  | .constCastE _ _ _ sp _ => sp
  | .staticCastE _ _ _ sp _ => sp
  | .reinterpretCastE _ _ _ sp _ => sp
  | .cstyleCastE _ _ _ sp _ => sp
  | .functionalCastE _ _ _ sp _ => sp
  | .binOpE _ _ _ sp _ _ => sp
  | .unaryOpE _ _ sp _ => sp
  | .condOpE _ _ sp _ _ _ => sp
  | .initListE _ _ sp => sp
  | .stdInitListE _ _ sp => sp

/-- Expr::IgnoreParenImpCasts: strip paren expressions and implicit casts. -/
def ignoreParenImpCasts : Expr → Expr
  | .parenE _ s => ignoreParenImpCasts s
  | .implicitCastE _ _ _ _ s => ignoreParenImpCasts s
  | e => e

/-- Modelled from the spec: `compat::getSubExprAsWritten` of the missing
`compat.hxx` — recovers the cast's syntactic sub-expression ("type as
written" view) by stripping the implicit casts the compiler inserted
between the cast and its written operand.  The argument is the cast's
`getSubExpr()`. -/
def subExprAsWritten : Expr → Expr
  | .implicitCastE _ _ _ _ s => subExprAsWritten s
  | e => e

/-- Predicate for `isa&lt;IntegerLiteral&gt;`. -/
def isIntegerLiteralNode : Expr → Bool
  | .intLit .. => true
  | _ => false

/-- Predicate for `isa&lt;InitListExpr&gt;`. -/
def isInitListNode : Expr → Bool
  | .initListE .. => true
  | _ => false

/-- Predicate for `isa&lt;CXXStdInitializerListExpr&gt;`. -/
def isStdInitListNode : Expr → Bool
  | .stdInitListE .. => true
  | _ => false

/-- `isArithmeticOp` of `redundantcast.cxx`: after stripping parens and
implicit casts, a binary arithmetic/bitwise/shift operator, a comma whose
right operand is arithmetic, a unary operator, or a conditional.  The
initial `IgnoreParenParenImpCasts` peel is fused into the recursion. -/
def isArithmeticOp : Expr → Bool
  | .parenE _ s => isArithmeticOp s
  | .implicitCastE _ _ _ _ s => isArithmeticOp s
  | .binOpE op _ _ _ _ rhs =>
      match op with
      | .mul | .divOp | .rem | .add | .subOp | .shl | .shr
      | .bitAnd | .bitXor | .bitOr => true
      | .comma => isArithmeticOp rhs
      | _ => false
  | .unaryOpE .. => true
  | .condOpE .. => true
  | _ => false

/-- `isRedundantConstCast` of `redundantcast.cxx`: the const_cast's type
canonically equals its written sub-expression's type, and the cast does
not manufacture an xvalue from a non-xvalue. -/
def isRedundantConstCast : Expr → Bool
  | .constCastE t _ k _ sub =>
      let sw := subExprAsWritten sub
      decide (canonical t = canonical (exprType sw)) &&
        (!decide (k = VK.xv) || decide (exprVK sw = VK.xv))
  | _ => false

/-- `canConstCastFromTo` of `redundantcast.cxx`. -/
def canConstCastFromTo (efrom eto : Expr) : Bool :=
  let k1 := exprVK efrom
  let k2 := exprVK eto
  (decide (k2 = VK.lv) && decide (k1 = VK.lv))
    || (decide (k2 = VK.xv)
        && (!decide (k1 = VK.rv) || isRecordType (exprType efrom)))

/-- `RedundantCast::isOkToRemoveArithmeticCast`: do not warn when the
source type is arithmetic and either the two (as-written) types differ
with at least one being a typedef, or the sub-expression is an arithmetic
operation, or it is an integer literal. -/
def isOkToRemoveArithmeticCast (t1 t2 : QualType) (subExpr : Expr) : Bool :=
  if isIntegralOrFloating t1
       && ((decide (t1 ≠ t2) && (isTypedefSugar t1 || isTypedefSugar t2))
           || isArithmeticOp subExpr
           || isIntegerLiteralNode (ignoreParenImpCasts subExpr))
  then false
  else true

/-- The `for (;;)` pointer-walk of `RedundantCast::VisitCXXConstCastExpr`
deciding whether a `static_cast`/`const_cast` combination is redundant.
All three types are canonical, so `getAs&lt;PointerType&gt;` is a direct match
on the pointer constructor. -/
def comboLoop : QualType → Bool → QualType → QualType → Bool
  | t1, isNp, t2, t3 =>
    if (t2.qc && (isNp || !t1.qc) && !t3.qc)
         || (t2.qv && (isNp || !t1.qv) && !t3.qv) then
      true
    else
      let step1 : Option (QualType × Bool) :=
        if isNp then some (t1, true)
        else
          match t1.ty with
          | Ty.ptrT pc pv p =>
              some (⟨pc, pv, p⟩, isNullPtrTypeQ ⟨pc, pv, p⟩)
          | _ => none
      match step1 with
      | none => false
      | some (t1x, npx) =>
          match h2 : t2.ty, t3.ty with
          | Ty.ptrT pc2 pv2 p2, Ty.ptrT pc3 pv3 p3 =>
              comboLoop t1x npx ⟨pc2, pv2, p2⟩ ⟨pc3, pv3, p3⟩
          | _, _ => false
termination_by _ _ t2 _ => sizeOf t2.ty
decreasing_by
  simp_wf
  simp [h2]

/-- External facilities consumed by the passes, per the specification's
configuration section: the caller-supplied `ignoreLocation` predicate,
`isInUnoIncludeFile`, Sema's `IsQualificationConversion`, and
`SourceManager::isAtStartOfImmediateMacroExpansion`. -/
structure Env where
  ignoreLoc : Loc → Bool
  inUnoIncludeFile : Loc → Bool
  isQualificationConversion : QualType → QualType → Bool
  atStartOfImmediateExpansion : Loc → Bool

/-- The distinct diagnostic message templates emitted by the modelled
callbacks. -/
inductive DiagKind where
  | redundantConstCastK
  | staticConstComboK
  | removeRedundantQualifierK
  | shouldBeConstCastK
  | staticCastRedundantK
  | redundantCStyleCastK
  | redundantFunctionalCastK
  | commaHidesCodeK
deriving DecidableEq

/-- One emitted diagnostic: its message template and its primary location. -/
structure Diag where
  kind : DiagKind
  loc : Loc
deriving DecidableEq

/-- Diagnostics of one message template among those a callback emitted. -/
def diagsOfKind (l : List Diag) (k : DiagKind) : List Diag :=
  l.filter fun d => decide (d.kind = k)

/-- The macro-body suppression condition of
`RedundantCast::VisitCStyleCastExpr`: after unwinding each location
through macro-argument expansions, all three are macro-body expansions
and the unwound expression location's spelling is ignored. -/
def cstyleMacroSuppressed (env : Env) (sp : SrcSpan) : Bool :=
  isMacroBodyExpansion (unwindMacroArgs sp.sbegin)
    && isMacroBodyExpansion (unwindMacroArgs sp.sexpr)
    && isMacroBodyExpansion (unwindMacroArgs sp.send)
    && env.ignoreLoc (getSpellingLoc (unwindMacroArgs sp.sexpr))

/-- `RedundantCast::VisitCXXConstCastExpr`: report a plainly redundant
const_cast, otherwise look through the written sub-expression for a
static_cast whose target already carries the const/volatile delta and, if
the pointer-walk finds the combination redundant, report that. -/
def visitCXXConstCastExpr (env : Env) : Expr → List Diag
  | .constCastE t tw k sp sub =>
      if env.ignoreLoc sp.sbegin then []
      else if isRedundantConstCast (.constCastE t tw k sp sub) then
        [⟨.redundantConstCastK, sp.sexpr⟩]
      else
        match ignoreParenImpCasts (subExprAsWritten sub) with
        | .staticCastE dt _ _ _ dsub =>
            let sub2 := subExprAsWritten dsub
            let t1 := canonical (exprType sub2)
            let t2 := canonical dt
            let t3 := canonical t
            if comboLoop t1 (isNullPtrTypeQ t1) t2 t3 then
              [⟨.staticConstComboK, sp.sexpr⟩]
            else []
        | _ => []
  | _ => []

/-- `RedundantCast::VisitCStyleCastExpr`: flag a C-style cast whose
as-written source and target types are identical and of builtin, enum or
typedef category, unless the arithmetic-safety gate objects, the spelling
is in a UNO include file, or the whole pattern is a macro-body expansion
(after unwinding macro-argument hops) with an ignored spelling origin. -/
def visitCStyleCastExpr (env : Env) : Expr → List Diag
  | .cstyleCastE _ tw _ sp sub =>
      if env.ignoreLoc sp.sbegin then []
      else if env.inUnoIncludeFile (getSpellingLoc sp.sbegin) then []
      else
        let t1 := exprType (subExprAsWritten sub)
        let t2 := tw
        if decide (t1 ≠ t2) then []
        else if !(isBuiltinType t1 || isEnumTypeQ t1 || isTypedefSugar t1) then []
        else if !isOkToRemoveArithmeticCast t1 t2 sub then []
        else if cstyleMacroSuppressed env sp then []
        else [⟨.redundantCStyleCastK, sp.sexpr⟩]
  | _ => []

/-- The void-pointer/typedef bail-out block of
`RedundantCast::VisitCXXStaticCastExpr` (covers `oslModule`-style cases):
returns true when the visit should end without a diagnostic. -/
def staticVoidPtrTypedefBail (t1 t2 : QualType) : Bool :=
  if isPtrToNonCVVoid t1 then
    match typedefNameOf t1 with
    | some n1 =>
        (match typedefNameOf t2 with
         | some n2 => decide (n2 ≠ n1)
         | none => true)
    | none =>
        match typedefNameOf t2 with
        | some _ => true
        | none =>
            match pointeeType t1, pointeeType t2 with
            | some pt1, some pt2 =>
                (match typedefNameOf pt1 with
                 | some m1 =>
                     (match typedefNameOf pt2 with
                      | some m2 => decide (m2 ≠ m1)
                      | none => true)
                 | none =>
                     match typedefNameOf pt2 with
                     | some _ => true
                     | none => false)
            | _, _ => false
  else false

/-- `RedundantCast::VisitCXXStaticCastExpr`: redundant top-level
qualifiers on a non-class object target, a static_cast that should be a
const_cast, and a fully redundant static_cast — the last guarded by the
arithmetic-safety gate, the void-pointer/typedef bail-out, a value-kind
compatibility check, and the suppression of `static_cast<bool>` inside
the body of the `assert` macro. -/
def visitCXXStaticCastExpr (env : Env) : Expr → List Diag
  | .staticCastE t tw k sp sub =>
      if env.ignoreLoc sp.sbegin then []
      else
        let sw := subExprAsWritten sub
        let t1 := exprType sw
        let t2 := tw
        let nonClassObjectType :=
          isObjectType t2 && !(isRecordType t2 || isArrayType t2)
        if nonClassObjectType && hasLocalQualifiers t2 then
          [⟨.removeRedundantQualifierK, sp.sexpr⟩]
        else
          let t3 := t
          let c1 := canonical t1
          let c3 := canonical t3
          if (if nonClassObjectType
                 || !canConstCastFromTo sw (.staticCastE t tw k sp sub)
              then decide (c1.ty ≠ c3.ty)
              else decide (c1 ≠ c3)) then
            (if nonClassObjectType
                || (decide (c1.ty ≠ c3.ty)
                    && !env.isQualificationConversion c1 c3) then []
             else [⟨.shouldBeConstCastK, sp.sexpr⟩])
          else if !isOkToRemoveArithmeticCast t1 t2 sub then []
          else if staticVoidPtrTypedefBail t1 t2 then []
          else
            let k1 := exprVK sw
            let k3 := k
            if (decide (k3 = VK.xv) && !decide (k1 = VK.xv))
                 || (decide (k3 = VK.lv) && decide (k1 = VK.xv)) then []
            else if isBooleanType t1 && isBooleanType t2
                      && isMacroBodyExpansion sp.sbegin
                      && decide (immediateMacroName sp.sbegin = "assert") then []
            else [⟨.staticCastRedundantK, sp.sexpr⟩]
  | _ => []

/-- The `FD_ISSET` walk of `RedundantCast::VisitCXXFunctionalCastExpr`:
climb the immediate-macro-caller chain while at the start of an immediate
expansion, looking for a macro named FD_ISSET. -/
def fdIssetWalk (env : Env) : Loc → Bool
  | .fileLoc _ => false
  | .bodyExp n s e =>
      if env.atStartOfImmediateExpansion (.bodyExp n s e) then
        if decide (n = "FD_ISSET") then true else fdIssetWalk env e
      else false
  | .argExp s e =>
      if env.atStartOfImmediateExpansion (.argExp s e) then
        if decide (immediateMacroName (.argExp s e) = "FD_ISSET") then true
        else fdIssetWalk env s
      else false

/-- `RedundantCast::VisitCXXFunctionalCastExpr`: flag a functional cast of
a non-class prvalue whose written target type equals the desugared
sub-expression type, with typedef, CPPUNIT-macro, FD_ISSET and
arithmetic-safety exclusions.  `getDesugaredType` is modelled by
canonicalization. -/
def visitCXXFunctionalCastExpr (env : Env) : Expr → List Diag
  | .functionalCastE t tw _ sp sub =>
      if env.ignoreLoc sp.sbegin then []
      else
        let sw := subExprAsWritten sub
        if !decide (exprVK sw = VK.rv) || isRecordType t
             || isInitListNode sw || isStdInitListNode sw then []
        else if isMacroArgExpansion sp.sexpr
                  && (decide (immediateMacroName sp.sexpr = "CPPUNIT_ASSERT")
                      || decide (immediateMacroName sp.sexpr = "CPPUNIT_ASSERT_MESSAGE")) then []
        else if isMacroID (exprSpan sw).send && fdIssetWalk env (exprSpan sw).sbegin then []
        else
          let t1 := tw
          let t2 := canonical (exprType sw)
          if decide (t1 ≠ t2) then []
          else if (isTypedefSugar t1 || isTypedefSugar (exprType sw))
                    && decide (t1 ≠ exprType sw) then []
          else if !isOkToRemoveArithmeticCast t1 t2 sub then []
          else [⟨.redundantFunctionalCastK, sp.sexpr⟩]
  | _ => []

/-- Statement kinds a comma operator's parent is tested against. -/
inductive StmtK where
  | parenExprK
  | binaryOperatorK
  | forStmtK
  | exprWithCleanupsK
  | otherStmtK
deriving DecidableEq

/-- A binary-operator node as seen by the `commaoperator` pass, together
with its immediate parent statement and the parent's parent (as resolved
by the external `parentStmt` facility of `plugin.hxx`, modelled as data). -/
structure CommaNode where
  opcode : BinOp
  span : SrcSpan
  parent : Option StmtK
  parent2 : Option StmtK
deriving DecidableEq

/-- The macro-body suppression condition of
`CommaOperator::VisitBinaryOperator`: start, operator and end locations
are all macro-body expansions and the operator's spelling location is
ignored. -/
def commaMacroSuppressed (env : Env) (n : CommaNode) : Bool :=
  isMacroBodyExpansion n.span.sbegin && isMacroBodyExpansion n.span.sexpr
    && isMacroBodyExpansion n.span.send
    && env.ignoreLoc (getSpellingLoc n.span.sexpr)

/-- The accepted idiomatic parent positions of a comma operator: a paren
expression, another binary operator, a for-statement, or a cleanup
wrapper whose own parent is a for-statement. -/
def commaParentAccepted (n : CommaNode) : Bool :=
  match n.parent with
  | some k =>
      decide (k = StmtK.parenExprK) || decide (k = StmtK.binaryOperatorK)
        || decide (k = StmtK.forStmtK)
        || (decide (k = StmtK.exprWithCleanupsK)
            && decide (n.parent2 = some StmtK.forStmtK))
  | none => false

/-- `CommaOperator::VisitBinaryOperator`: suppress fully macro-synthesized
patterns with ignored spelling, ignore non-comma operators, accept
idiomatic parent positions, and otherwise warn that the comma operator
hides code at the operator's location. -/
def visitCommaBinaryOperator (env : Env) (n : CommaNode) : List Diag :=
  if env.ignoreLoc n.span.sbegin then []
  else if commaMacroSuppressed env n then []
  else if decide (n.opcode ≠ BinOp.comma) then []
  else
    match n.parent with
    | some k =>
        if decide (k = StmtK.parenExprK) then []
        else if decide (k = StmtK.binaryOperatorK) then []
        else if decide (k = StmtK.forStmtK) then []
        else if decide (k = StmtK.exprWithCleanupsK) then
          (if decide (n.parent2 = some StmtK.forStmtK) then []
           else [⟨.commaHidesCodeK, n.span.sexpr⟩])
        else [⟨.commaHidesCodeK, n.span.sexpr⟩]
    | none => [⟨.commaHidesCodeK, n.span.sexpr⟩]

/-- Overloaded operator kinds tested by
`PassParamsByRef::VisitCXXOperatorCallExpr`. -/
inductive OverOp where
  | ooEqual
  | ooPlusEqual
  | ooMinusEqual
  | ooStarEqual
  | ooSlashEqual
  | ooOther
deriving DecidableEq

/-- Body expressions traversed by the `passparamsbyref` pass.  A
`declRefP` records the referenced declaration's identity and whether that
declaration is a `ParmVarDecl`; an implicit cast records whether its kind
is `CK_LValueToRValue` and its start location (consulted by the pass's
`TraverseImplicitCastExpr` override); an overloaded-operator call keeps
its first two arguments; a `callP` keeps the callee's name and whether
the callee lives in namespace std. -/
inductive PExpr where
  | declRefP (did : Nat) (isParam : Bool)
  | intLitP (n : Int)
  | parenP (sub : PExpr)
  | implicitCastP (lvalueToRValue : Bool) (loc : Loc) (sub : PExpr)
  | binAssignP (lhs rhs : PExpr)
  | binOtherP (lhs rhs : PExpr)
  | opCallP (op : OverOp) (arg0 arg1 : PExpr)
  | constructP (args : List PExpr)
  | callP (calleeName : String) (calleeInStd : Bool) (args : List PExpr)
  | otherP (children : List PExpr)

/-- Expr::IgnoreParenImpCasts on body expressions. -/
def ignorePIC : PExpr → PExpr
  | .parenP s => ignorePIC s
  | .implicitCastP _ _ s => ignorePIC s
  | e => e

/-- Predicate for `isa<DeclRefExpr>` on body expressions. -/
def isDeclRefNode : PExpr → Bool
  | .declRefP .. => true
  | _ => false

/-- The five overloaded operators treated as mutating their first
argument: `=`, `/=`, `*=`, `-=`, `+=`. -/
def isAssignLikeOp : OverOp → Bool
  | .ooEqual | .ooSlashEqual | .ooStarEqual | .ooMinusEqual | .ooPlusEqual => true
  | .ooOther => false

/-- The parameter identity contributed by `PassParamsByRef::VisitBinAssign`
for an assignment's left-hand side: a direct `DeclRefExpr` naming a
`ParmVarDecl`. -/
def assignLhsParam : PExpr → List Nat
  | .declRefP d true => [d]
  | _ => []

mutual

/-- The Exclusion Set contributions collected while the pass traverses one
function body: `VisitBinAssign` records a parameter assigned to,
`VisitCXXOperatorCallExpr` records a parameter that is the first argument
of an overloaded `=`, `+=`, `-=`, `*=` or `/=`; the pass's
`TraverseImplicitCastExpr` override prunes subtrees of implicit casts at
ignored locations and of `CK_LValueToRValue` casts of (paren-wrapped)
`DeclRefExpr`s. -/
def collectExcl (env : Env) : PExpr → List Nat
  | .declRefP _ _ => []
  | .intLitP _ => []
  | .parenP s => collectExcl env s
  | .implicitCastP lv l s =>
      if env.ignoreLoc l then []
      else if lv && isDeclRefNode (ignorePIC s) then []
      else collectExcl env s
  | .binAssignP lhs rhs =>
      assignLhsParam lhs ++ collectExcl env lhs ++ collectExcl env rhs
  | .binOtherP lhs rhs => collectExcl env lhs ++ collectExcl env rhs
  | .opCallP op a0 a1 =>
      (if isAssignLikeOp op then assignLhsParam a0 else [])
        ++ collectExcl env a0 ++ collectExcl env a1
  | .constructP args => collectExclList env args
  | .callP _ _ args => collectExclList env args
  | .otherP cs => collectExclList env cs

/-- Exclusion Set contributions of a list of child expressions. -/
def collectExclList (env : Env) : List PExpr → List Nat
  | [] => []
  | e :: es => collectExcl env e ++ collectExclList env es

end

/-- One entry of a constructor's member-initializer list. -/
structure CtorInit where
  isMember : Bool
  initE : PExpr

/-- The move-recognition of `PassParamsByRef::TraverseFunctionDecl`: a
member initializer whose value is a single-argument construction from a
call to a function named `move` in namespace std (the namespace and name
check, `loplugin::DeclCheck(...).Function("move").StdNamespace()`, is
modelled from the spec since `check.hxx` is not present). -/
def isMoveInit (ci : CtorInit) : Bool :=
  ci.isMember &&
    match ignorePIC ci.initE with
    | .constructP [a] =>
        (match ignorePIC a with
         | .callP n inStd _ => inStd && decide (n = "move")
         | _ => false)
    | _ => false

/-- A function parameter: its declaration identity and its type. -/
structure PParam where
  pid : Nat
  pty : QualType
deriving DecidableEq

/-- A function declaration as seen by `PassParamsByRef::TraverseFunctionDecl`. -/
structure PFunc where
  floc : Loc
  isDeleted : Bool
  isTemplateSpec : Bool
  isMethod : Bool
  overriddenCount : Nat
  hasBody : Bool
  isCtor : Bool
  inits : List CtorInit
  params : List PParam
  body : PExpr

/-- Modelled from the spec: the fixed allow-list of handle-like
reference-counted wrapper types matched by name and namespace in
`PassParamsByRef::isFat` (the `loplugin::TypeCheck`
`Class(..).Namespace(..)` chains of the missing `check.hxx`):
`com::sun::star::uno::Reference`, `com::sun::star::uno::Sequence`,
`rtl::OString`, `rtl::OUString`, `rtl::Reference`. -/
def matchesHandleAllowList (t : QualType) : Bool :=
  match (canonical t).ty with
  | .recordT n ns _ _ =>
      (decide (n = "Reference") && decide (ns = ["uno", "star", "sun", "com"]))
        || (decide (n = "Sequence") && decide (ns = ["uno", "star", "sun", "com"]))
        || (decide (n = "OString") && decide (ns = ["rtl"]))
        || (decide (n = "OUString") && decide (ns = ["rtl"]))
        || (decide (n = "Reference") && decide (ns = ["rtl"]))
  | _ => false

/-- ASTContext::getTypeSizeInChars, available for the record types the
size branch of `isFat` can reach. -/
def recordSizeInChars (t : QualType) : Nat :=
  match (canonical t).ty with
  | .recordT _ _ _ s => s
  | _ => 0

/-- `PassParamsByRef::isFat`: only record types can be fat; a record is
fat when it matches the handle allow-list, or is complete and larger than
64 size-units. -/
def isFat (t : QualType) : Bool :=
  if !isRecordType t then false
  else if matchesHandleAllowList t then true
  else if isIncompleteType t then false
  else decide (recordSizeInChars t > 64)

/-- The early returns of `PassParamsByRef::TraverseFunctionDecl`: ignored
location, deleted, function-template specialization, an overriding
method, or a declaration that is not the definition. -/
def skipFunc (env : Env) (f : PFunc) : Bool :=
  env.ignoreLoc f.floc || f.isDeleted || f.isTemplateSpec
    || (f.isMethod && decide (f.overriddenCount > 0)) || !f.hasBody

/-- The `bFoundMove` computation of `PassParamsByRef::TraverseFunctionDecl`:
the function is a constructor one of whose member initializers is a
recognized move construction.  (The computation does not depend on which
parameter, if any, the move's argument is.) -/
def hasMoveInit (f : PFunc) : Bool :=
  f.isCtor && f.inits.any isMoveInit

/-- The flagging loop of `PassParamsByRef::TraverseFunctionDecl`: after
traversing the body into the (freshly cleared) Exclusion Set, warn on
every fat, unexcluded parameter of a function without a recognized
constructor move, in declaration order. -/
def flaggedParams (env : Env) (f : PFunc) : List Nat :=
  if skipFunc env f then []
  else
    let excl := collectExcl env f.body
    f.params.filterMap fun p =>
      if !isFat p.pty then none
      else if decide (p.pid ∈ excl) then none
      else if hasMoveInit f then none
      else some p.pid

/-- The whole pass over the translation unit's functions, threading the
visitor's mutable Exclusion Set explicitly: a skipped function leaves the
set unchanged; a processed function clears it, repopulates it from its
own body and emits its warnings. -/
def runPass (env : Env) : List Nat → List PFunc → List Nat
  | _, [] => []
  | st, f :: fs =>
      if skipFunc env f then runPass env st fs
      else flaggedParams env f ++ runPass env (collectExcl env f.body) fs

/-- Nodes reached by the pass's traversal of a function body, taking into
account the subtree pruning of `PassParamsByRef::TraverseImplicitCastExpr`
(implicit casts at ignored locations, and `CK_LValueToRValue` casts of
paren-wrapped `DeclRefExpr`s, are not descended into). -/
inductive Reach (env : Env) : PExpr → PExpr → Prop where
  | here (e : PExpr) : Reach env e e
  | viaParen {s t : PExpr} : Reach env s t → Reach env (.parenP s) t
  | viaImplicit {lv : Bool} {l : Loc} {s t : PExpr} :
      env.ignoreLoc l = false →
      (lv && isDeclRefNode (ignorePIC s)) = false →
      Reach env s t → Reach env (.implicitCastP lv l s) t
  | viaAssignLhs {lhs rhs t : PExpr} :
      Reach env lhs t → Reach env (.binAssignP lhs rhs) t
  | viaAssignRhs {lhs rhs t : PExpr} :
      Reach env rhs t → Reach env (.binAssignP lhs rhs) t
  | viaBinLhs {lhs rhs t : PExpr} :
      Reach env lhs t → Reach env (.binOtherP lhs rhs) t
  | viaBinRhs {lhs rhs t : PExpr} :
      Reach env rhs t → Reach env (.binOtherP lhs rhs) t
  | viaOpArg0 {op : OverOp} {a0 a1 t : PExpr} :
      Reach env a0 t → Reach env (.opCallP op a0 a1) t
  | viaOpArg1 {op : OverOp} {a0 a1 t : PExpr} :
      Reach env a1 t → Reach env (.opCallP op a0 a1) t
  | viaConstruct {args : List PExpr} {t a : PExpr} :
      a ∈ args → Reach env a t → Reach env (.constructP args) t
  | viaCall {n : String} {std : Bool} {args : List PExpr} {t a : PExpr} :
      a ∈ args → Reach env a t → Reach env (.callP n std args) t
  | viaOther {cs : List PExpr} {t a : PExpr} :
      a ∈ cs → Reach env a t → Reach env (.otherP cs) t

/-- Follows the spec's words: the parameter is "the target of a recognized
'move' construction in a constructor's member-initializer list" — some
member initializer constructs its member from `std::move(p)` applied to
precisely this parameter. -/
def specIsMoveTargetParam (pid : Nat) (f : PFunc) : Bool :=
  f.inits.any fun ci =>
    ci.isMember &&
      match ignorePIC ci.initE with
      | .constructP [a] =>
          (match ignorePIC a with
           | .callP n inStd args =>
               inStd && decide (n = "move")
                 && (match args with
                     | [arg] =>
                         (match ignorePIC arg with
                          | .declRefP d true => decide (d = pid)
                          | _ => false)
                     | _ => false)
           | _ => false)
      | _ => false

/-- An environment in which nothing is ignored and no location is in a
UNO include file. -/
def plainEnv : Env :=
  ⟨fun _ => false, fun _ => false, fun _ _ => false, fun _ => false⟩

/-- The builtin type `int`. -/
def intQT : QualType := ⟨false, false, .builtin "int" true false⟩

/-- The builtin type `bool`. -/
def boolQT : QualType := ⟨false, false, .builtin "bool" true false⟩

/-- A plain file-location span. -/
def fileSpan : SrcSpan := ⟨.fileLoc 1, .fileLoc 2, .fileLoc 3⟩

/-- An integer-literal sub-expression of type `int`. -/
def intLitSub : Expr := .intLit intQT fileSpan 1

/-- A location written inside the body of a macro `M` spelled in an
ignored file and used as a macro argument: the location itself is a
macro-argument expansion, but unwinding the argument hop lands in the
macro-body expansion. -/
def argOverBodyLoc : Loc := .argExp (.bodyExp "M" (.fileLoc 7) (.fileLoc 1)) (.fileLoc 2)

/-- An environment ignoring exactly the spelling file of `argOverBodyLoc`. -/
def macroSpellEnv : Env :=
  ⟨fun l => decide (l = .fileLoc 7), fun _ => false, fun _ _ => false, fun _ => false⟩

/-- A variable reference of type `int`. -/
def intVarSub : Expr := .declRef intQT .lv ⟨.fileLoc 2, .fileLoc 2, .fileLoc 2⟩

/-- An identity C-style cast `(int)v` located entirely inside macro
bodies reached through macro-argument hops. -/
def cstyleInMacroArg : Expr :=
  .cstyleCastE intQT intQT .rv ⟨argOverBodyLoc, argOverBodyLoc, argOverBodyLoc⟩ intVarSub

/-- The same identity C-style cast written in an ordinary file location. -/
def cstyleInFile : Expr :=
  .cstyleCastE intQT intQT .rv ⟨.fileLoc 2, .fileLoc 3, .fileLoc 4⟩ intVarSub

/-- The incomplete (forward-declared) record type `rtl::OString`. -/
def incompleteOString : QualType := ⟨false, false, .recordT "OString" ["rtl"] false 0⟩

/-- The allow-listed record type `rtl::OUString`. -/
def ouStringQT : QualType := ⟨false, false, .recordT "OUString" ["rtl"] true 4⟩

/-- A complete record type of 100 size-units (fat by size). -/
def bigRecordQT : QualType := ⟨false, false, .recordT "Big" [] true 100⟩

/-- A member initializer move-constructing a member from
`std::move(<parameter 0>)`. -/
def moveOfParam0 : CtorInit := ⟨true, .constructP [.callP "move" true [.declRefP 0 true]]⟩

/-- A constructor taking a fat `rtl::OUString` parameter 0 (moved into a
member) and an unrelated fat parameter 1 (not moved, not excluded). -/
def ctorWithMove : PFunc :=
  ⟨.fileLoc 0, false, false, false, 0, true, true, [moveOfParam0],
   [⟨0, ouStringQT⟩, ⟨1, bigRecordQT⟩], .otherP []⟩

/-- The same constructor without the move member initializer. -/
def ctorWithoutMove : PFunc :=
  ⟨.fileLoc 0, false, false, false, 0, true, true, [],
   [⟨0, ouStringQT⟩, ⟨1, bigRecordQT⟩], .otherP []⟩

/-- A function whose fat parameter 0 is reassigned in its body. -/
def fnAssigningParam : PFunc :=
  ⟨.fileLoc 0, false, false, false, 0, true, false, [],
   [⟨0, bigRecordQT⟩], .binAssignP (.declRefP 0 true) (.intLitP 1)⟩

/-- A bare comma expression at statement level in ordinary code. -/
def bareCommaNode : CommaNode :=
  ⟨.comma, fileSpan, some .otherStmtK, none⟩

/-- A comma expression synthesized entirely by a macro body from an
ignored spelling file. -/
def macroCommaNode : CommaNode :=
  ⟨.comma, ⟨.bodyExp "M" (.fileLoc 7) (.fileLoc 1), .bodyExp "M" (.fileLoc 7) (.fileLoc 1),
            .bodyExp "M" (.fileLoc 7) (.fileLoc 1)⟩, some .otherStmtK, none⟩

/-- A `static_cast<bool>` of a bool variable whose start location is in
the body of the `assert` macro. -/
def boolAssertCast : Expr :=
  .staticCastE boolQT boolQT .rv
    ⟨.bodyExp "assert" (.fileLoc 5) (.fileLoc 6), .bodyExp "assert" (.fileLoc 5) (.fileLoc 6),
     .bodyExp "assert" (.fileLoc 5) (.fileLoc 6)⟩
    (.declRef boolQT .lv ⟨.fileLoc 6, .fileLoc 6, .fileLoc 6⟩)

/-- An environment whose UNO-include-file predicate holds exactly for
file location 9. -/
def unoEnv : Env :=
  ⟨fun _ => false, fun l => decide (l = .fileLoc 9), fun _ _ => false, fun _ => false⟩

/-- An identity C-style cast spelled inside a UNO include file. -/
def cstyleInUno : Expr :=
  .cstyleCastE intQT intQT .rv ⟨.fileLoc 9, .fileLoc 9, .fileLoc 9⟩ intVarSub

/-- Helper: the static_cast/const_cast-combination branch of
`visitCXXConstCastExpr` never produces a plain "redundant const_cast"
diagnostic. -/
theorem combo_branch_no_plain (env : Env) (t tw : QualType) (k : VK) (sp : SrcSpan)
    (sub : Expr) (hig : env.ignoreLoc sp.sbegin = false)
    (hrc : isRedundantConstCast (.constCastE t tw k sp sub) = false) :
    diagsOfKind (visitCXXConstCastExpr env (.constCastE t tw k sp sub))
      .redundantConstCastK = [] := by
  simp only [visitCXXConstCastExpr, hig, Bool.false_eq_true, if_false, hrc]
  cases hm : ignoreParenImpCasts (subExprAsWritten sub)
  case staticCastE => split <;> simp [diagsOfKind]
  all_goals simp [diagsOfKind]

/-- C1: for a const_cast not at an ignored location, the no-op const-cast
rule of `VisitCXXConstCastExpr` emits exactly one "redundant const_cast"
diagnostic, at the cast's expression location, precisely when
`isRedundantConstCast` holds, and no such diagnostic otherwise (the other
branch of the callback only ever emits the distinct
static_cast/const_cast-combination diagnostic). -/
theorem claim1_const_cast_rule (env : Env) (t tw : QualType) (k : VK) (sp : SrcSpan)
    (sub : Expr) :
    diagsOfKind (visitCXXConstCastExpr env (.constCastE t tw k sp sub))
        .redundantConstCastK
      = if env.ignoreLoc sp.sbegin = false
             ∧ isRedundantConstCast (.constCastE t tw k sp sub) = true
        then [⟨.redundantConstCastK, sp.sexpr⟩]
        else [] := by
  by_cases hig : env.ignoreLoc sp.sbegin = true
  · simp [visitCXXConstCastExpr, hig, diagsOfKind]
  · have hig' : env.ignoreLoc sp.sbegin = false := by
      cases h : env.ignoreLoc sp.sbegin
      · rfl
      · exact absurd h hig
    by_cases hrc : isRedundantConstCast (.constCastE t tw k sp sub) = true
    · simp [visitCXXConstCastExpr, hig', hrc, diagsOfKind]
    · have hrc' : isRedundantConstCast (.constCastE t tw k sp sub) = false := by
        cases h : isRedundantConstCast (.constCastE t tw k sp sub)
        · rfl
        · exact absurd h hrc
      rw [combo_branch_no_plain env t tw k sp sub hig' hrc']
      simp [hrc']

/-- C5 counterexample: the forward-declared (incomplete) record type
`rtl::OString` is classified fat by `isFat` because the allow-list is
consulted before the completeness check, contradicting the claim that
`isFat` is false for every incomplete type. -/
theorem claim5_isFat_cex :
    isFat incompleteOString = true ∧ isIncompleteType incompleteOString = true := by
  decide

/-- C5 amended: `isFat T` holds iff `T` is a record type that either
matches the handle allow-list (even if incomplete) or is complete with
size above 64; in particular a complete non-record object type is never
fat, and an incomplete record is fat exactly when allow-listed. -/
theorem claim5_isFat_spec (t : QualType) :
    isFat t
      = (isRecordType t
          && (matchesHandleAllowList t
              || (!isIncompleteType t && decide (recordSizeInChars t > 64)))) := by
  unfold isFat
  split
  · next h => simp_all
  · next h =>
      split
      · next h2 => simp_all
      · next h2 =>
          split <;> simp_all

/-- Helper: a skipped function produces no warnings. -/
theorem flagged_nil_of_skip (env : Env) (f : PFunc) (h : skipFunc env f = true) :
    flaggedParams env f = [] := by
  simp [flaggedParams, h]

/-- C8: the diagnostics of the fat-parameter pass are the per-function
warnings computed from each function's freshly cleared Exclusion Set; in
particular `runPass` is independent of any incoming exclusion state, so
an exclusion recorded while traversing one function never affects the
flagging decision for a parameter of any other function. -/
theorem claim8_pass_state (env : Env) (st : List Nat) (fs : List PFunc) :
    runPass env st fs = (fs.map (flaggedParams env)).flatten := by
  induction fs generalizing st with
  | nil => rfl
  | cons f fs ih =>
      by_cases h : skipFunc env f = true
      · simp [runPass, h, flagged_nil_of_skip env f h, ih]
      · simp [runPass, h, ih]

/-- C9: a static_cast between boolean types whose start location is a
macro-body expansion of a macro named "assert" is never reported by the
redundant-static_cast rule, whatever the rest of the node looks like. -/
theorem claim9_assert_static_cast (env : Env) (t tw : QualType) (k : VK)
    (sp : SrcSpan) (sub : Expr)
    (h1 : isBooleanType (exprType (subExprAsWritten sub)) = true)
    (h2 : isBooleanType tw = true)
    (h3 : isMacroBodyExpansion sp.sbegin = true)
    (h4 : immediateMacroName sp.sbegin = "assert") :
    diagsOfKind (visitCXXStaticCastExpr env (.staticCastE t tw k sp sub))
      .staticCastRedundantK = [] := by
  simp only [visitCXXStaticCastExpr]
  split_ifs <;> simp_all [diagsOfKind]

/-- C9 witness: `static_cast<bool>` of a bool lvalue inside the body of
`assert` is not reported. -/
theorem claim9_assert_static_cast_wit :
    isBooleanType boolQT = true
      ∧ diagsOfKind (visitCXXStaticCastExpr plainEnv boolAssertCast)
          .staticCastRedundantK = [] :=
  ⟨by decide,
   claim9_assert_static_cast plainEnv boolQT boolQT .rv
     ⟨.bodyExp "assert" (.fileLoc 5) (.fileLoc 6), .bodyExp "assert" (.fileLoc 5) (.fileLoc 6),
      .bodyExp "assert" (.fileLoc 5) (.fileLoc 6)⟩
     (.declRef boolQT .lv ⟨.fileLoc 6, .fileLoc 6, .fileLoc 6⟩)
     (by decide) (by decide) (by decide) (by decide)⟩

/-- C10: a C-style cast whose start location's spelling lies inside a UNO
include file is never reported by `VisitCStyleCastExpr`, whatever its
types are. -/
theorem claim10_uno_cstyle (env : Env) (t tw : QualType) (k : VK) (sp : SrcSpan)
    (sub : Expr)
    (h : env.inUnoIncludeFile (getSpellingLoc sp.sbegin) = true) :
    visitCStyleCastExpr env (.cstyleCastE t tw k sp sub) = [] := by
  simp only [visitCStyleCastExpr]
  split
  · rfl
  · simp [h]

/-- C10 witness: an identity `(int)` cast spelled in a UNO include file
is not reported. -/
theorem claim10_uno_cstyle_wit :
    unoEnv.inUnoIncludeFile (getSpellingLoc (Loc.fileLoc 9)) = true
      ∧ visitCStyleCastExpr unoEnv cstyleInUno = [] :=
  ⟨by decide,
   claim10_uno_cstyle unoEnv intQT intQT .rv ⟨.fileLoc 9, .fileLoc 9, .fileLoc 9⟩
     intVarSub (by decide)⟩

/-- Helper: the arithmetic-safety gate rejects when the source type is
arithmetic and the sub-expression is an arithmetic operation. -/
theorem gate_false_of_arith (t1 t2 : QualType) (sub : Expr)
    (h1 : isIntegralOrFloating t1 = true) (h2 : isArithmeticOp sub = true) :
    isOkToRemoveArithmeticCast t1 t2 sub = false := by
  simp [isOkToRemoveArithmeticCast, h1, h2]

/-- Helper: the arithmetic-safety gate rejects when the source type is
arithmetic and the sub-expression is an integer literal. -/
theorem gate_false_of_lit (t1 t2 : QualType) (sub : Expr)
    (h1 : isIntegralOrFloating t1 = true)
    (h2 : isIntegerLiteralNode (ignoreParenImpCasts sub) = true) :
    isOkToRemoveArithmeticCast t1 t2 sub = false := by
  simp [isOkToRemoveArithmeticCast, h1, h2]

/-- Helper: the arithmetic-safety gate rejects when the source type is
arithmetic and the two types differ with at least one being a typedef. -/
theorem gate_false_of_typedef (t1 t2 : QualType) (sub : Expr)
    (h1 : isIntegralOrFloating t1 = true) (hne : t1 ≠ t2)
    (hts : (isTypedefSugar t1 || isTypedefSugar t2) = true) :
    isOkToRemoveArithmeticCast t1 t2 sub = false := by
  simp [isOkToRemoveArithmeticCast, h1, hne, hts]

/-- Helper: when the arithmetic-safety gate rejects, `VisitCStyleCastExpr`
emits nothing at all. -/
theorem cstyle_gate_bail (env : Env) (t tw : QualType) (k : VK) (sp : SrcSpan)
    (sub : Expr)
    (h : isOkToRemoveArithmeticCast (exprType (subExprAsWritten sub)) tw sub = false) :
    visitCStyleCastExpr env (.cstyleCastE t tw k sp sub) = [] := by
  simp only [visitCStyleCastExpr]
  split_ifs <;> simp_all

/-- Helper: when the arithmetic-safety gate rejects, `VisitCXXStaticCastExpr`
cannot reach the "static_cast is redundant" report. -/
theorem static_gate_bail (env : Env) (t tw : QualType) (k : VK) (sp : SrcSpan)
    (sub : Expr)
    (h : isOkToRemoveArithmeticCast (exprType (subExprAsWritten sub)) tw sub = false) :
    diagsOfKind (visitCXXStaticCastExpr env (.staticCastE t tw k sp sub))
      .staticCastRedundantK = [] := by
  simp only [visitCXXStaticCastExpr]
  split_ifs <;> simp_all [diagsOfKind]

/-- Helper: when the arithmetic-safety gate rejects, `VisitCXXFunctionalCastExpr`
emits nothing at all. -/
theorem functional_gate_bail (env : Env) (t tw : QualType) (k : VK) (sp : SrcSpan)
    (sub : Expr)
    (h : isOkToRemoveArithmeticCast tw (canonical (exprType (subExprAsWritten sub))) sub
          = false) :
    visitCXXFunctionalCastExpr env (.functionalCastE t tw k sp sub) = [] := by
  simp only [visitCXXFunctionalCastExpr]
  split_ifs <;> simp_all

/-- Helper: when the written target type or the sub-expression's type is a
typedef and the two differ, `VisitCXXFunctionalCastExpr` emits nothing. -/
theorem functional_typedef_bail (env : Env) (t tw : QualType) (k : VK) (sp : SrcSpan)
    (sub : Expr)
    (hts : (isTypedefSugar tw || isTypedefSugar (exprType (subExprAsWritten sub))) = true)
    (hne : tw ≠ exprType (subExprAsWritten sub)) :
    visitCXXFunctionalCastExpr env (.functionalCastE t tw k sp sub) = [] := by
  simp only [visitCXXFunctionalCastExpr]
  split_ifs <;> simp_all

/-- C2: for a cast between arithmetic types, none of the C-style,
static_cast or functional-cast redundant-cast rules fires when either
type is a typedef differing from the other, or the sub-expression is an
arithmetic operation, or it is an integer literal — even when the types
are canonically equal.  (The qualifier and const-cast advisories of the
static_cast callback are distinct diagnostics, per the specification's
pattern table.) -/
theorem claim2_arithmetic_gate (env : Env) (t tw : QualType) (k : VK) (sp : SrcSpan)
    (sub : Expr)
    (hsrc : isIntegralOrFloating (exprType (subExprAsWritten sub)) = true)
    (htgt : isIntegralOrFloating tw = true)
    (hcond :
      (exprType (subExprAsWritten sub) ≠ tw
          ∧ (isTypedefSugar (exprType (subExprAsWritten sub)) || isTypedefSugar tw) = true)
        ∨ isArithmeticOp sub = true
        ∨ isIntegerLiteralNode (ignoreParenImpCasts sub) = true) :
    visitCStyleCastExpr env (.cstyleCastE t tw k sp sub) = []
      ∧ diagsOfKind (visitCXXStaticCastExpr env (.staticCastE t tw k sp sub))
          .staticCastRedundantK = []
      ∧ visitCXXFunctionalCastExpr env (.functionalCastE t tw k sp sub) = [] := by
  rcases hcond with ⟨hne, hts⟩ | ha | hl
  · have hg := gate_false_of_typedef _ tw sub hsrc hne hts
    refine ⟨cstyle_gate_bail env t tw k sp sub hg,
            static_gate_bail env t tw k sp sub hg, ?_⟩
    refine functional_typedef_bail env t tw k sp sub ?_ (Ne.symm hne)
    rcases Bool.or_eq_true _ _ |>.mp hts with h | h <;> simp [h]
  · have hg := gate_false_of_arith _ tw sub hsrc ha
    have hgf := gate_false_of_arith tw (canonical (exprType (subExprAsWritten sub))) sub htgt ha
    exact ⟨cstyle_gate_bail env t tw k sp sub hg,
           static_gate_bail env t tw k sp sub hg,
           functional_gate_bail env t tw k sp sub hgf⟩
  · have hg := gate_false_of_lit _ tw sub hsrc hl
    have hgf := gate_false_of_lit tw (canonical (exprType (subExprAsWritten sub))) sub htgt hl
    exact ⟨cstyle_gate_bail env t tw k sp sub hg,
           static_gate_bail env t tw k sp sub hg,
           functional_gate_bail env t tw k sp sub hgf⟩

/-- C2 witness: an identity cast of the integer literal `1` to `int` is
not reported by any of the three rules. -/
theorem claim2_arithmetic_gate_wit :
    isIntegralOrFloating intQT = true
      ∧ isIntegerLiteralNode (ignoreParenImpCasts intLitSub) = true
      ∧ (visitCStyleCastExpr plainEnv (.cstyleCastE intQT intQT .rv fileSpan intLitSub) = []
          ∧ diagsOfKind
              (visitCXXStaticCastExpr plainEnv (.staticCastE intQT intQT .rv fileSpan intLitSub))
              .staticCastRedundantK = []
          ∧ visitCXXFunctionalCastExpr plainEnv
              (.functionalCastE intQT intQT .rv fileSpan intLitSub) = []) :=
  ⟨by decide, by decide,
   claim2_arithmetic_gate plainEnv intQT intQT .rv fileSpan intLitSub
     (by decide) (by decide) (Or.inr (Or.inr (by decide)))⟩

/-- Helper: full characterization of the comma-operator callback for an
unignored comma operator: suppressed iff the macro-body condition holds,
otherwise diagnosed exactly when its parent position is not accepted. -/
theorem comma_visit_characterization (env : Env) (n : CommaNode)
    (h1 : env.ignoreLoc n.span.sbegin = false)
    (h3 : n.opcode = BinOp.comma) :
    visitCommaBinaryOperator env n
      = if commaMacroSuppressed env n then []
        else if commaParentAccepted n then []
        else [⟨.commaHidesCodeK, n.span.sexpr⟩] := by
  obtain ⟨op, sp, par, par2⟩ := n
  obtain rfl : op = BinOp.comma := h3
  replace h1 : env.ignoreLoc sp.sbegin = false := h1
  by_cases hm : commaMacroSuppressed env ⟨BinOp.comma, sp, par, par2⟩ = true
  · simp [visitCommaBinaryOperator, commaParentAccepted, h1, hm]
  · simp only [Bool.not_eq_true] at hm
    cases par with
    | none => simp [visitCommaBinaryOperator, commaParentAccepted, h1, hm]
    | some st =>
        cases st with
        | exprWithCleanupsK =>
            by_cases hp2 : par2 = some StmtK.forStmtK <;>
              simp [visitCommaBinaryOperator, commaParentAccepted, h1, hm, hp2]
        | _ => simp [visitCommaBinaryOperator, commaParentAccepted, h1, hm]

/-- C7: an unignored, unsuppressed comma operator is not flagged when its
parent is a paren expression, another binary operator, a for-statement,
or a cleanup wrapper whose parent is a for-statement; otherwise exactly
one "comma operator hides code" warning is emitted at the operator's
location. -/
theorem claim7_comma_parent (env : Env) (n : CommaNode)
    (h1 : env.ignoreLoc n.span.sbegin = false)
    (h2 : commaMacroSuppressed env n = false)
    (h3 : n.opcode = BinOp.comma) :
    visitCommaBinaryOperator env n
      = if commaParentAccepted n then []
        else [⟨.commaHidesCodeK, n.span.sexpr⟩] := by
  rw [comma_visit_characterization env n h1 h3, h2]
  simp

/-- C7 witness: a bare statement-level comma gets exactly one warning at
its operator location. -/
theorem claim7_comma_parent_wit :
    plainEnv.ignoreLoc bareCommaNode.span.sbegin = false
      ∧ commaMacroSuppressed plainEnv bareCommaNode = false
      ∧ visitCommaBinaryOperator plainEnv bareCommaNode
          = if commaParentAccepted bareCommaNode then []
            else [⟨.commaHidesCodeK, bareCommaNode.span.sexpr⟩] :=
  ⟨by decide, by decide,
   claim7_comma_parent plainEnv bareCommaNode (by decide) (by decide) (by decide)⟩

/-- Helper: contributions of one list element are contributions of the
list. -/
theorem collect_sub_of_mem (env : Env) {a : PExpr} :
    ∀ {args : List PExpr}, a ∈ args →
      ∀ x ∈ collectExcl env a, x ∈ collectExclList env args := by
  intro args
  induction args with
  | nil => intro h; cases h
  | cons b bs ih =>
      intro h x hx
      rcases List.mem_cons.mp h with rfl | h'
      · simp only [collectExclList, List.mem_append]
        exact Or.inl hx
      · simp only [collectExclList, List.mem_append]
        exact Or.inr (ih h' x hx)

/-- Helper: every Exclusion Set contribution of a node the traversal
reaches is an Exclusion Set contribution of the whole body. -/
theorem reach_collect_sub (env : Env) {e t : PExpr} (h : Reach env e t) :
    ∀ x ∈ collectExcl env t, x ∈ collectExcl env e := by
  induction h with
  | here e => exact fun x hx => hx
  | viaParen _ ih =>
      intro x hx
      simpa [collectExcl] using ih x hx
  | viaImplicit h1 h2 _ ih =>
      intro x hx
      simp only [collectExcl, h1, Bool.false_eq_true, if_false, h2]
      exact ih x hx
  | viaAssignLhs _ ih =>
      intro x hx
      simp only [collectExcl, List.mem_append]
      exact Or.inl (Or.inr (ih x hx))
  | viaAssignRhs _ ih =>
      intro x hx
      simp only [collectExcl, List.mem_append]
      exact Or.inr (ih x hx)
  | viaBinLhs _ ih =>
      intro x hx
      simp only [collectExcl, List.mem_append]
      exact Or.inl (ih x hx)
  | viaBinRhs _ ih =>
      intro x hx
      simp only [collectExcl, List.mem_append]
      exact Or.inr (ih x hx)
  | viaOpArg0 _ ih =>
      intro x hx
      simp only [collectExcl, List.mem_append]
      exact Or.inl (Or.inr (ih x hx))
  | viaOpArg1 _ ih =>
      intro x hx
      simp only [collectExcl, List.mem_append]
      exact Or.inr (ih x hx)
  | viaConstruct hm _ ih =>
      intro x hx
      simp only [collectExcl]
      exact collect_sub_of_mem env hm x (ih x hx)
  | viaCall hm _ ih =>
      intro x hx
      simp only [collectExcl]
      exact collect_sub_of_mem env hm x (ih x hx)
  | viaOther hm _ ih =>
      intro x hx
      simp only [collectExcl]
      exact collect_sub_of_mem env hm x (ih x hx)

/-- Helper: a parameter in the Exclusion Set is never flagged, whatever
its type. -/
theorem excl_not_flagged (env : Env) (f : PFunc) (p : Nat)
    (h : p ∈ collectExcl env f.body) : p ∉ flaggedParams env f := by
  intro hmem
  simp only [flaggedParams] at hmem
  split at hmem
  · simp at hmem
  · rcases List.mem_filterMap.mp hmem with ⟨a, _, hf⟩
    split_ifs at hf with h1 h2 h3
    · exact absurd (Option.some.inj hf ▸ h) (by simpa using h2)

/-- C6: a parameter reached by the pass's body traversal as the direct
left-hand side of a plain assignment, or as the direct first argument of
an overloaded `=`, `+=`, `-=`, `*=` or `/=` call, lands in the Exclusion
Set and is never flagged by `flaggedParams`, regardless of its type's
size or fatness. -/
theorem claim6_exclusion_set (env : Env) (f : PFunc) (p : Nat) (rhs : PExpr)
    (op : OverOp) (a1 : PExpr)
    (h : Reach env f.body (.binAssignP (.declRefP p true) rhs)
         ∨ (isAssignLikeOp op = true
             ∧ Reach env f.body (.opCallP op (.declRefP p true) a1))) :
    p ∈ collectExcl env f.body ∧ p ∉ flaggedParams env f := by
  have hmem : p ∈ collectExcl env f.body := by
    rcases h with h | ⟨hop, h⟩
    · refine reach_collect_sub env h p ?_
      simp [collectExcl, assignLhsParam]
    · refine reach_collect_sub env h p ?_
      simp [collectExcl, assignLhsParam, hop]
  exact ⟨hmem, excl_not_flagged env f p hmem⟩

/-- C6 witness: a fat parameter reassigned at the top of the body is
excluded and not flagged. -/
theorem claim6_exclusion_set_wit :
    0 ∈ collectExcl plainEnv fnAssigningParam.body
      ∧ 0 ∉ flaggedParams plainEnv fnAssigningParam :=
  claim6_exclusion_set plainEnv fnAssigningParam 0 (.intLitP 1) .ooOther (.intLitP 0)
    (Or.inl (Reach.here _))

/-- C4 counterexample: in a constructor with a move member initializer
consuming parameter 0, the unrelated fat parameter 1 — not the target of
any move construction and not excluded — is nevertheless not flagged,
because `bFoundMove` is computed per constructor, not per parameter; the
same constructor without the move initializer flags both parameters. -/
theorem claim4_move_exemption_cex :
    specIsMoveTargetParam 1 ctorWithMove = false
      ∧ isFat bigRecordQT = true
      ∧ decide (1 ∈ collectExcl plainEnv ctorWithMove.body) = false
      ∧ flaggedParams plainEnv ctorWithMove = []
      ∧ flaggedParams plainEnv ctorWithoutMove = [0, 1] := by
  decide

/-- C4 amended: a fat constructor parameter consumed via `std::move` in a
member initializer is not flagged; moreover, while any member
initializer of the constructor is a recognized move construction, no
parameter of that constructor is flagged at all, including fat
parameters that are not the move's target. -/
theorem claim4_move_exemption (env : Env) (f : PFunc)
    (h1 : f.isCtor = true) (h2 : f.inits.any isMoveInit = true) :
    flaggedParams env f = [] := by
  simp only [flaggedParams]
  split
  · rfl
  · refine List.filterMap_eq_nil_iff.mpr ?_
    intro a _
    have hm : hasMoveInit f = true := by simp [hasMoveInit, h1, h2]
    split_ifs <;> simp_all

/-- C4 witness: the constructor with the move member initializer flags
nothing. -/
theorem claim4_move_exemption_wit :
    ctorWithMove.isCtor = true
      ∧ ctorWithMove.inits.any isMoveInit = true
      ∧ flaggedParams plainEnv ctorWithMove = [] :=
  ⟨by decide, by decide,
   claim4_move_exemption plainEnv ctorWithMove (by decide) (by decide)⟩

/-- Helper: full characterization of the C-style-cast callback for a cast
that matches the redundancy pattern: suppressed iff the (argument-unwound)
macro-body condition holds, otherwise one diagnostic. -/
theorem cstyle_visit_characterization (env : Env) (t tw : QualType) (k : VK)
    (sp : SrcSpan) (sub : Expr)
    (hc1 : env.ignoreLoc sp.sbegin = false)
    (hc2 : env.inUnoIncludeFile (getSpellingLoc sp.sbegin) = false)
    (hc3 : exprType (subExprAsWritten sub) = tw)
    (hc4 : (isBuiltinType tw || isEnumTypeQ tw || isTypedefSugar tw) = true)
    (hc5 : isOkToRemoveArithmeticCast tw tw sub = true) :
    visitCStyleCastExpr env (.cstyleCastE t tw k sp sub)
      = if cstyleMacroSuppressed env sp then []
        else [⟨.redundantCStyleCastK, sp.sexpr⟩] := by
  simp only [visitCStyleCastExpr, hc3]
  simp [hc1, hc2, hc4, hc5]

/-- C3 counterexample: an identity `(int)` cast whose three locations are
macro-argument expansions (hence not macro-body expansions) over an
ignored macro-body spelling is suppressed by `VisitCStyleCastExpr`, even
though the claim requires the locations themselves to be macro-body
expansions for suppression; the same cast at plain file locations is
diagnosed, showing the pattern otherwise matches. -/
theorem claim3_macro_policy_cex :
    isMacroBodyExpansion argOverBodyLoc = false
      ∧ visitCStyleCastExpr macroSpellEnv cstyleInMacroArg = []
      ∧ visitCStyleCastExpr macroSpellEnv cstyleInFile
          = [⟨.redundantCStyleCastK, .fileLoc 3⟩] := by
  decide

/-- C3 amended: for an otherwise-diagnosed pattern, suppression holds iff
all three pattern locations are macro-body expansions and the spelling of
the operator/expression location is ignored — where the comma-operator
rule tests the locations directly, while the C-style-cast rule first
unwinds each location through macro-argument expansions to its immediate
macro caller. -/
theorem claim3_macro_policy (env : Env) (n : CommaNode) (t tw : QualType) (k : VK)
    (sp : SrcSpan) (sub : Expr)
    (hn1 : env.ignoreLoc n.span.sbegin = false)
    (hn2 : n.opcode = BinOp.comma)
    (hn3 : commaParentAccepted n = false)
    (hc1 : env.ignoreLoc sp.sbegin = false)
    (hc2 : env.inUnoIncludeFile (getSpellingLoc sp.sbegin) = false)
    (hc3 : exprType (subExprAsWritten sub) = tw)
    (hc4 : (isBuiltinType tw || isEnumTypeQ tw || isTypedefSugar tw) = true)
    (hc5 : isOkToRemoveArithmeticCast tw tw sub = true) :
    (visitCommaBinaryOperator env n = [] ↔ commaMacroSuppressed env n = true)
      ∧ (visitCStyleCastExpr env (.cstyleCastE t tw k sp sub) = []
          ↔ cstyleMacroSuppressed env sp = true) := by
  constructor
  · rw [comma_visit_characterization env n hn1 hn2, hn3]
    by_cases hm : commaMacroSuppressed env n = true <;> simp [hm]
  · rw [cstyle_visit_characterization env t tw k sp sub hc1 hc2 hc3 hc4 hc5]
    by_cases hm : cstyleMacroSuppressed env sp = true <;> simp [hm]

/-- C3 witness: a bare statement-level comma in plain code is not
suppressed; the macro-argument-wrapped identity cast is suppressed. -/
theorem claim3_macro_policy_wit :
    commaParentAccepted bareCommaNode = false
      ∧ ((visitCommaBinaryOperator macroSpellEnv bareCommaNode = []
            ↔ commaMacroSuppressed macroSpellEnv bareCommaNode = true)
          ∧ (visitCStyleCastExpr macroSpellEnv cstyleInMacroArg = []
              ↔ cstyleMacroSuppressed macroSpellEnv
                  ⟨argOverBodyLoc, argOverBodyLoc, argOverBodyLoc⟩ = true)) :=
  ⟨by decide,
   claim3_macro_policy macroSpellEnv bareCommaNode intQT intQT .rv
     ⟨argOverBodyLoc, argOverBodyLoc, argOverBodyLoc⟩ intVarSub
     (by decide) (by decide) (by decide) (by decide) (by decide) (by decide)
     (by decide) (by decide)⟩

end LoVerify
